import Mathlib

/-!
# Verification of the Gantt layout/interaction engine (`src/index.ts`)

Shallow embedding of the task-resolution, dependency-traversal, view-scale
and pointer-interaction logic of the Gantt class.  Points in time are
modelled as `Int` hours since an (arbitrary) midnight epoch, so that a
date has zero hour/minute/second components exactly when it is divisible
by 24.  Pixel quantities are modelled as `ℚ`.  JavaScript `undefined` is
modelled as `Option.none` where it can flow through a computation.
-/

namespace Gantt

/-- A raw date-like field of a task (`start` / `end` on the `Task`
interface).  `missing` covers the JS-falsy cases (absent, `null`, `""`);
`bad` is a truthy value that the date utilities cannot parse; `good t`
is a truthy value parsing to the time `t` (hours since epoch). -/
inductive RawDate where
  | missing
  | bad
  | good (t : Int)
deriving DecidableEq, Repr

/-- JS truthiness of a raw date field, as tested by `!resolvedTask.start`
and `!resolvedTask.end` in `setup_tasks`. -/
def RawDate.truthy : RawDate → Bool
  | .missing => false
  | _ => true

/-- Modelled from the spec: `dateUtils.parse(value) -> concrete date or
failure` (§6).  The date utilities are a collaborator outside the given
source file. -/
def parse : RawDate → Option Int
  | .good t => some t
  | _ => none

/-- Modelled from the spec: `dateUtils.add(date, amount, unit)` (§6),
lifted over a possibly-failed date.  `n` is given in hours
(`add(d, k, 'day')` is `addO d (24*k)`). -/
def addO (d : Option Int) (n : Int) : Option Int :=
  d.map (· + n)

/-- Modelled from the spec: the guard
`dateUtils.diff(end, start, 'year') > 10` of `setup_tasks` — a duration
exceeding 10 years (§3: "A duration exceeding 10 years is treated as an
invalid end").  When either bound failed to parse, the comparison is
false (NaN is not greater than 10). -/
def durTooLong : Option Int → Option Int → Bool
  | some e, some s => decide (e - s > 10 * 365 * 24)
  | _, _ => false

/-- The end-of-day bump of `setup_tasks`: if the resolved end has zero
hour/minute/second components (here: is divisible by 24) it is advanced
by 24 hours.  A failed end stays failed (`getHours()` of an invalid
date is NaN, which is not `=== 0`). -/
def bumpEnd : Option Int → Option Int
  | some e => if e % 24 = 0 then some (e + 24) else some e
  | none => none

/-- The `dependencies` field of a raw task: absent (`undefined`), a
comma-separated string, an explicit list, or some other (invalid)
truthy value. -/
inductive DepField where
  | absent
  | str (s : String)
  | list (l : List String)
  | other
deriving DecidableEq, Repr

/-- The value `setup_tasks` stores into `resolvedTask.dependencies`:
either an actual list of id strings, the JS `undefined`, or an invalid
non-list value passed through unchanged. -/
inductive DepsVal where
  | undef
  | strList (l : List String)
  | other
deriving DecidableEq, Repr

/-- `String.prototype.split(',')` on the character list of a string: the
empty string yields one empty field, and every comma starts a new
field. -/
def splitComma (l : List Char) : List (List Char) :=
  match l with
  | [] => [[]]
  | c :: rest =>
    let r := splitComma rest
    if c = ',' then [] :: r
    else
      match r with
      | [] => [[c]]
      | h :: t => (c :: h) :: t

/-- `String.prototype.trim()` on a character list: drop whitespace from
both ends. -/
def trimChars (l : List Char) : List Char :=
  ((l.dropWhile Char.isWhitespace).reverse.dropWhile Char.isWhitespace).reverse

/-- The comma-split / trim / drop-empties pipeline applied to a string
`dependencies` field:
`task.dependencies.split(',').map((d) => d.trim()).filter((d) => d)`. -/
def splitDeps (s : String) : List String :=
  (((splitComma s.data).map trimChars).map (fun cs => String.mk cs)).filter
    (fun d => d != "")

/-- The dependency normalisation of `setup_tasks`.  The source reads

```
let dependencies = [];
if (typeof task.dependencies === 'string') { dependencies = ...split... }
else if (dependencies) { dependencies = task.dependencies; }
```

The `else if` tests the freshly initialised local `dependencies` — the
array `[]`, which is a *truthy* JS value — so for every non-string
field the raw value is copied through unchanged: an absent field stays
`undefined`, an invalid one stays invalid. -/
def resolveDependencies : DepField → DepsVal
  | .str s => .strList (splitDeps s)
  | .absent => .undef
  | .list l => .strList l
  | .other => .other

/-- A raw task record (the `Task` interface), restricted to the fields
the resolution logic reads. -/
structure RawTask where
  id : String
  name : String
  start : RawDate
  end_ : RawDate
  dependencies : DepField
  progress : Int
deriving DecidableEq, Repr

/-- A resolved task record (the `ResolvedTask` interface).  `end_` is
the raw end field *after* `setup_tasks` possibly nulled it (the 10-year
clamp assigns `resolvedTask.end = null`). -/
structure ResolvedTask where
  id : String
  name : String
  start : RawDate
  end_ : RawDate
  startResolved : Option Int
  endResolved : Option Int
  dependencies : DepsVal
  indexResolved : Nat
  invalid : Bool
  progress : Int
deriving DecidableEq, Repr

/-- The per-task body of `setup_tasks` (`tasks.map((task, i) => ...)`).
`today` is the wall-clock value returned by `dateUtils.today()`;
`freshId` stands for the pseudo-random suffix of `generateId` (an
oracle for `Math.random`, which the claims never touch).  The steps
follow the source in order: parse both bounds, 10-year clamp (nulling
the raw end), the three date-repair branches keyed on raw-field
truthiness, the end-of-day bump, the invalid flag, id generation. -/
def resolveTask (today : Int) (freshId : String) (i : Nat) (task : RawTask) :
    ResolvedTask :=
  let dependencies := resolveDependencies task.dependencies
  let s0 := parse task.start
  let e0 := parse task.end_
  -- make task invalid if duration too large: `resolvedTask.end = null`
  let end1 : RawDate := if durTooLong e0 s0 then .missing else task.end_
  -- invalid dates: both raw bounds falsy
  let p1 : Option Int × Option Int :=
    if (! task.start.truthy) && (! end1.truthy) then
      (some today, some (today + 2 * 24))
    else (s0, e0)
  -- end-only: start two days before the resolved end
  let s2 : Option Int :=
    if (! task.start.truthy) && end1.truthy then addO p1.2 (-(2 * 24)) else p1.1
  -- start-only: end two days after the resolved start
  let e2 : Option Int :=
    if task.start.truthy && (! end1.truthy) then addO s2 (2 * 24) else p1.2
  -- all-day end-of-day bump
  let e3 := bumpEnd e2
  -- invalid flag, from the (possibly nulled) raw fields
  let invalid := (! task.start.truthy) || (! end1.truthy)
  { id := if task.id = "" then task.name ++ "_" ++ freshId else task.id
    name := task.name
    start := task.start
    end_ := end1
    startResolved := s2
    endResolved := e3
    dependencies := dependencies
    indexResolved := i
    invalid := invalid
    progress := task.progress }

/-- After resolution, does the task satisfy `endResolved > startResolved`?
False when either bound failed to parse (comparisons against an invalid
date are false). -/
def endAfterStart (r : ResolvedTask) : Bool :=
  match r.startResolved, r.endResolved with
  | some s, some e => decide (s < e)
  | _, _ => false

/-- `this.dependencyMap[d] = this.dependencyMap[d] || []; push(t.id)`:
append `tid` to the (insertion-ordered) entry of `key`, creating it at
the end when absent. -/
def dmAppend (dm : List (String × List String)) (key tid : String) :
    List (String × List String) :=
  if dm.any (fun p => p.1 == key) then
    dm.map (fun p => if p.1 == key then (p.1, p.2 ++ [tid]) else p)
  else dm ++ [(key, [tid])]

/-- `setupDependencies()`: iterate the resolved tasks and, for each of a
task's dependency ids, append the task's own id under that key.  When a
task's `dependencies` is not an actual list (the `undefined` the
resolver lets through for an absent field), `t.dependencies.forEach`
throws a `TypeError`; the result is `none` in that case. -/
def setupDependencies (tasks : List ResolvedTask) :
    Option (List (String × List String)) :=
  tasks.foldlM
    (fun dm t =>
      match t.dependencies with
      | .strList l => some (l.foldl (fun dm d => dmAppend dm d t.id) dm)
      | _ => none)
    []

/-! ## Dependency map and dependent-task traversal -/

/-- A JS string-or-undefined value, as flows through
`get_all_dependent_tasks` (indexing `dependencyMap` with an id that has
no entry yields `undefined`, which is then concatenated into the
accumulator as an element). -/
abbrev JSStr := Option String

/-- JS truthiness of a string-or-undefined value, as used by the final
`out.filter(Boolean)`. -/
def jsTruthy : JSStr → Bool
  | none => false
  | some s => s != ""

/-- `this.dependencyMap[curr]`: an insertion-ordered record from id to
the list of dependent ids, indexed with a possibly-undefined key.
Indexing with `undefined` looks up the key `"undefined"`; maps built by
`setupDependencies` from task ids never contain that key, and the
association lists we use never do either, so the lookup yields
`undefined`. -/
def dmGet (dm : List (String × List String)) : JSStr → Option (List String)
  | none => none
  | some s => (dm.find? (fun p => p.1 == s)).map (·.2)

/-- One evaluation of
`to_process.reduce((acc, curr) => acc.concat(this.dependencyMap[curr]), [])`.
`Array.prototype.concat` called on `undefined` appends `undefined`
itself as a single element. -/
def depsStep (dm : List (String × List String)) (tp : List JSStr) : List JSStr :=
  tp.foldl
    (fun acc curr =>
      match dmGet dm curr with
      | none => acc ++ [none]
      | some l => acc ++ l.map some)
    []

/-- The `while (to_process.length)` loop of `get_all_dependent_tasks`,
made total with an explicit fuel parameter: `none` means the loop was
still running when the fuel ran out.  The frontier filter
`deps.filter((d) => !to_process.includes(d))` reads the *old*
`to_process` (the assignment happens after the right-hand side is
evaluated). -/
def dependentLoop (dm : List (String × List String)) :
    Nat → List JSStr → List JSStr → Option (List JSStr)
  | fuel, out, tp =>
    if tp.isEmpty then some (out.filter jsTruthy)
    else
      match fuel with
      | 0 => none
      | n + 1 =>
        let deps := depsStep dm tp
        dependentLoop dm n (out ++ deps) (deps.filter (fun d => ! tp.contains d))

/-- `get_all_dependent_tasks(task_id)`, fuel-passing version of the
source loop: `out = []`, `to_process = [task_id]`, loop, then
`out.filter(Boolean)`. -/
def get_all_dependent_tasks (dm : List (String × List String)) (fuel : Nat)
    (task_id : String) : Option (List JSStr) :=
  dependentLoop dm fuel [] [some task_id]

/-! ## Options and view scale -/

/-- The engine options the claims touch. -/
structure Options where
  view_mode : String
  step : ℚ
  column_width : ℚ
deriving DecidableEq, Repr

/-- The `'Day'`-mode defaults of `setup_options` after the constructor's
initial `change_view_mode()` (step 24, column width 38). -/
def dayOptions : Options :=
  { view_mode := "Day", step := 24, column_width := 38 }

/-- The closed view-mode enumeration (`VIEW_MODE`). -/
def viewModes : List String :=
  ["Quarter Day", "Half Day", "Day", "Week", "Month", "Year"]

/-- `update_view_scale(view_mode)`: the source first assigns
`this.options.view_mode = view_mode` unconditionally, then switches on
the mode to set `step`/`column_width`; the `default` branch only logs
`console.error`.  The boolean result records whether that error was
logged. -/
def update_view_scale (o : Options) (view_mode : String) : Options × Bool :=
  let o := { o with view_mode := view_mode }
  if view_mode = "Quarter Day" then ({ o with step := 24 / 4, column_width := 38 }, false)
  else if view_mode = "Half Day" then ({ o with step := 24 / 2, column_width := 38 }, false)
  else if view_mode = "Day" then ({ o with step := 24, column_width := 38 }, false)
  else if view_mode = "Week" then ({ o with step := 24 * 7, column_width := 140 }, false)
  else if view_mode = "Month" then ({ o with step := 24 * 30, column_width := 120 }, false)
  else if view_mode = "Year" then ({ o with step := 24 * 365, column_width := 120 }, false)
  else (o, true)

/-- `view_is(mode)` for a single string argument. -/
def view_is (o : Options) (mode : String) : Bool :=
  o.view_mode = mode

/-! ## Snap position -/

/-- Truncation toward zero, the rounding JS division-free `%` is built
on. -/
def jsTrunc (q : ℚ) : Int :=
  if 0 ≤ q then ⌊q⌋ else ⌈q⌉

/-- The JS remainder operator `%` on numbers: `a - b * trunc(a / b)`,
keeping the sign of the dividend. -/
def jsMod (a b : ℚ) : ℚ :=
  a - b * (jsTrunc (a / b) : ℚ)

/-- `get_snap_position(dx)`: per-view-mode quantisation of a pixel
delta — granularity `column_width / 7` in Week mode, `column_width / 30`
in Month mode, the whole `column_width` otherwise; the remainder is
dropped, and one granule is added back when the remainder reaches half
a granule. -/
def get_snap_position (o : Options) (dx : ℚ) : ℚ :=
  let odx := dx
  if view_is o "Week" then
    let rem := jsMod dx (o.column_width / 7)
    odx - rem + (if rem < o.column_width / 14 then 0 else o.column_width / 7)
  else if view_is o "Month" then
    let rem := jsMod dx (o.column_width / 30)
    odx - rem + (if rem < o.column_width / 60 then 0 else o.column_width / 30)
  else
    let rem := jsMod dx o.column_width
    odx - rem + (if rem < o.column_width / 2 then 0 else o.column_width)

/-- The per-view-mode snap granularity, for stating what
`get_snap_position` computes. -/
def snapGranularity (o : Options) : ℚ :=
  if view_is o "Week" then o.column_width / 7
  else if view_is o "Month" then o.column_width / 30
  else o.column_width

/-- The branch body shared by the three cases of `get_snap_position`,
with the granularity abstracted: drop the JS remainder, and add one
granule back when the remainder reaches half a granule. -/
def snapCore (g dx : ℚ) : ℚ :=
  dx - jsMod dx g + (if jsMod dx g < g / 2 then 0 else g)

/-- The `'Week'`-mode options set by `update_view_scale` (step 168,
column width 140). -/
def weekOptions : Options :=
  { view_mode := "Week", step := 24 * 7, column_width := 140 }

/-! ## Pointer-interaction state (bind_bar_events / bind_bar_progress) -/

/-- The displayed geometry of a bar's rect (`$bar`'s `x` and `width`
attributes). -/
structure BarGeom where
  x : ℚ
  width : ℚ
deriving DecidableEq, Repr

/-- One bar as tracked during a gesture: its task id, the gesture-start
snapshot (`$bar.ox`, `$bar.oy`, `$bar.owidth`, taken at mousedown), the
per-move snapped delta `$bar.finaldx`, and its current geometry. -/
structure GestureBar where
  id : String
  ox : ℚ
  oy : ℚ
  owidth : ℚ
  finaldx : ℚ
  cur : BarGeom
deriving DecidableEq, Repr

/-- The three bar gestures of `bind_bar_events` (`is_dragging`,
`is_resizing_left`, `is_resizing_right`). -/
inductive GestureKind where
  | dragging
  | resizing_left
  | resizing_right
deriving DecidableEq, Repr

/-- Modelled from the spec: `Bar.update_bar_position({x, width})` is an
attribute setter on the bar's rect (§6 "Drawing primitives …
attribute setters"); a field that is not passed keeps its value.  The
two optional arguments are `Option ℚ`. -/
def update_bar_position (g : BarGeom) (x : Option ℚ) (width : Option ℚ) :
    BarGeom :=
  { x := x.getD g.x, width := width.getD g.width }

/-- The `mousemove` handler body of `bind_bar_events`, as a function of
the active gesture kind, the grabbed bar's id (`parent_bar_id`), the
cumulative raw delta `dx = e.offsetX - x_on_start`, and the tracked bar
list (grabbed task plus its dependent closure).  For every bar it first
stores `$bar.finaldx = get_snap_position(dx)`, then updates geometry
per branch: dragging moves every bar to `ox + finaldx`; resizing-left
moves every bar and additionally shrinks the grabbed bar's width;
resizing-right grows only the grabbed bar's width and touches no other
bar's geometry. -/
def mousemove_update (o : Options) (kind : GestureKind) (parent_bar_id : String)
    (dx : ℚ) (bars : List GestureBar) : List GestureBar :=
  bars.map fun bar0 =>
    let finaldx := get_snap_position o dx
    let bar := { bar0 with finaldx := finaldx }
    match kind with
    | .resizing_left =>
      if parent_bar_id = bar.id then
        { bar with
          cur := update_bar_position bar.cur (some (bar.ox + finaldx)) (some (bar.owidth - finaldx)) }
      else
        { bar with cur := update_bar_position bar.cur (some (bar.ox + finaldx)) none }
    | .resizing_right =>
      if parent_bar_id = bar.id then
        { bar with cur := update_bar_position bar.cur none (some (bar.owidth + finaldx)) }
      else bar
    | .dragging =>
      { bar with cur := update_bar_position bar.cur (some (bar.ox + finaldx)) none }

/-- The progress-gesture state captured at mousedown in
`bind_bar_progress`: `$bar_progress.owidth`, `min_dx = -progressWidth`,
`max_dx = barWidth - progressWidth`. -/
structure ProgressGesture where
  owidth : ℚ
  min_dx : ℚ
  max_dx : ℚ
deriving DecidableEq, Repr

/-- The mousedown capture of `bind_bar_progress`, from the progress
rect's width and the bar rect's width. -/
def progress_mousedown (progressWidth barWidth : ℚ) : ProgressGesture :=
  { owidth := progressWidth
    min_dx := -progressWidth
    max_dx := barWidth - progressWidth }

/-- The clamp applied to the raw delta on each `mousemove` of
`bind_bar_progress`: first `if (dx > max_dx) dx = max_dx`, then
`if (dx < min_dx) dx = min_dx`. -/
def progress_clamp (g : ProgressGesture) (dx : ℚ) : ℚ :=
  let dx := if dx > g.max_dx then g.max_dx else dx
  if dx < g.min_dx then g.min_dx else dx

/-- The new width the handler writes to the progress rect:
`$.attr($bar_progress, 'width', $bar_progress.owidth + dx)` with the
clamped delta. -/
def progress_mousemove (g : ProgressGesture) (dx : ℚ) : ℚ :=
  g.owidth + progress_clamp g dx

/-- A bar's full visible state for the progress gesture's frame
condition: position, width and progress-rect width. -/
structure ProgressBarState where
  id : String
  x : ℚ
  width : ℚ
  progressWidth : ℚ
deriving DecidableEq, Repr

/-- The progress `mousemove` handler lifted to the whole bar list: the
source handler writes only the captured bar's progress rect
(`$bar_progress`) and its handle polygon; no other bar, and no bar's
`x`/`width`, is touched. -/
def progress_move_all (tracked : String) (g : ProgressGesture) (dx : ℚ)
    (bars : List ProgressBarState) : List ProgressBarState :=
  bars.map fun b =>
    if tracked = b.id then { b with progressWidth := progress_mousemove g dx }
    else b

/-! ## Theorems -/

/-- The two-task cyclic dependency map: task `b` depends on `a` and task
`a` depends on `b`, so each id's "depends on me" list holds the other. -/
def cycleDM : List (String × List String) := [("a", ["b"]), ("b", ["a"])]

/-- A diamond-shaped dependency map: `b` and `c` depend on `a`, and `d`
depends on both `b` and `c`, so `d` is reachable from `a` by two
paths. -/
def diamondDM : List (String × List String) :=
  [("a", ["b", "c"]), ("b", ["d"]), ("c", ["d"])]

lemma dependentLoop_cycle (n : Nat) : ∀ out : List JSStr,
    dependentLoop cycleDM n out [some "a"] = none ∧
    dependentLoop cycleDM n out [some "b"] = none := by
  induction n with
  | zero => intro out; exact ⟨rfl, rfl⟩
  | succ n ih =>
    intro out
    refine ⟨?_, ?_⟩
    · show dependentLoop cycleDM n (out ++ [some "b"]) [some "b"] = none
      exact (ih _).2
    · show dependentLoop cycleDM n (out ++ [some "a"]) [some "a"] = none
      exact (ih _).1

/-- C1: the claim fails on the code.  On the cyclic map `{a: [b], b: [a]}`
the `while (to_process.length)` loop of `get_all_dependent_tasks('a')`
never exits — the frontier alternates `[b]`, `[a]`, ... because the
filter only removes ids present in the *current* frontier, never ids
already visited — so no amount of fuel makes the loop terminate.
Moreover, even on the acyclic diamond `{a: [b, c], b: [d], c: [d]}`,
where the loop does terminate, the id `d` (reachable by two paths)
occurs twice in the returned list, not exactly once. -/
theorem c1_nontermination :
    (∀ fuel : Nat, get_all_dependent_tasks cycleDM fuel "a" = none) ∧
      get_all_dependent_tasks diamondDM 5 "a" =
        some [some "b", some "c", some "d", some "d"] :=
  ⟨fun fuel => (dependentLoop_cycle fuel []).1, rfl⟩

/-- A raw task whose two bounds both parse but are inverted: the start
is day 10 (hour 240) and the end is day 0 (hour 0). -/
def invertedTask : RawTask :=
  { id := "t1", name := "t1", start := .good 240, end_ := .good 0,
    dependencies := .list [], progress := 0 }

/-- C2, counterexample: on a task whose raw bounds both parse but are
inverted (start at hour 240, end at hour 0), no repair branch fires —
the repairs key on raw-field truthiness, not on ordering — so the task
resolves with `startResolved = 240` and `endResolved = 24` (the parsed
end plus the end-of-day bump): `endResolved > startResolved` is false. -/
theorem c2_counterexample :
    (resolveTask 0 "x" 0 invertedTask).startResolved = some 240 ∧
      (resolveTask 0 "x" 0 invertedTask).endResolved = some 24 ∧
      endAfterStart (resolveTask 0 "x" 0 invertedTask) = false :=
  ⟨rfl, rfl, rfl⟩

lemma bumpEnd_some (x : Int) :
    bumpEnd (some x) = some (x + (if x % 24 = 0 then 24 else 0)) := by
  by_cases h : x % 24 = 0 <;> simp [bumpEnd, h]

lemma endAfterStart_of (r : ResolvedTask) (a b : Int)
    (h1 : r.startResolved = some a) (h2 : r.endResolved = some b)
    (h : a < b) : endAfterStart r = true := by
  unfold endAfterStart
  rw [h1, h2]
  simpa using h

lemma rt_mm (today : Int) (fid : String) (i : Nat) (id name : String)
    (dep : DepField) (pr : Int) :
    (resolveTask today fid i ⟨id, name, .missing, .missing, dep, pr⟩).startResolved
        = some today ∧
    (resolveTask today fid i ⟨id, name, .missing, .missing, dep, pr⟩).endResolved
        = bumpEnd (some (today + 2 * 24)) ∧
    (resolveTask today fid i ⟨id, name, .missing, .missing, dep, pr⟩).invalid = true :=
  ⟨rfl, rfl, rfl⟩

lemma rt_mg (today : Int) (fid : String) (i : Nat) (id name : String)
    (dep : DepField) (pr : Int) (e : Int) :
    (resolveTask today fid i ⟨id, name, .missing, .good e, dep, pr⟩).startResolved
        = some (e + -(2 * 24)) ∧
    (resolveTask today fid i ⟨id, name, .missing, .good e, dep, pr⟩).endResolved
        = bumpEnd (some e) ∧
    (resolveTask today fid i ⟨id, name, .missing, .good e, dep, pr⟩).invalid = true :=
  ⟨rfl, rfl, rfl⟩

lemma rt_gm (today : Int) (fid : String) (i : Nat) (id name : String)
    (dep : DepField) (pr : Int) (s : Int) :
    (resolveTask today fid i ⟨id, name, .good s, .missing, dep, pr⟩).startResolved
        = some s ∧
    (resolveTask today fid i ⟨id, name, .good s, .missing, dep, pr⟩).endResolved
        = bumpEnd (some (s + 2 * 24)) ∧
    (resolveTask today fid i ⟨id, name, .good s, .missing, dep, pr⟩).invalid = true :=
  ⟨rfl, rfl, rfl⟩

lemma rt_gg_ok (today : Int) (fid : String) (i : Nat) (id name : String)
    (dep : DepField) (pr : Int) (s e : Int)
    (hc : durTooLong (some e) (some s) = false) :
    (resolveTask today fid i ⟨id, name, .good s, .good e, dep, pr⟩).startResolved
        = some s ∧
    (resolveTask today fid i ⟨id, name, .good s, .good e, dep, pr⟩).endResolved
        = bumpEnd (some e) ∧
    (resolveTask today fid i ⟨id, name, .good s, .good e, dep, pr⟩).invalid = false := by
  simp [resolveTask, parse, hc, RawDate.truthy]

lemma rt_gg_clamp (today : Int) (fid : String) (i : Nat) (id name : String)
    (dep : DepField) (pr : Int) (s e : Int)
    (hc : durTooLong (some e) (some s) = true) :
    (resolveTask today fid i ⟨id, name, .good s, .good e, dep, pr⟩).startResolved
        = some s ∧
    (resolveTask today fid i ⟨id, name, .good s, .good e, dep, pr⟩).end_
        = RawDate.missing ∧
    (resolveTask today fid i ⟨id, name, .good s, .good e, dep, pr⟩).endResolved
        = bumpEnd (some (s + 2 * 24)) ∧
    (resolveTask today fid i ⟨id, name, .good s, .good e, dep, pr⟩).invalid = true := by
  simp [resolveTask, parse, hc, RawDate.truthy, addO]

/-- C2, amended: `endResolved > startResolved` holds for every raw task
provided that every present (truthy) bound actually parses, and that
whenever both bounds are present and survive the 10-year clamp, the
parsed end is strictly after the parsed start or equal to it at an
instant with zero time components (equal bounds at a non-midnight
instant, and inverted bounds, violate the property, as do
present-but-unparseable bounds). -/
theorem c2_endResolved_after_startResolved (today : Int) (fid : String)
    (i : Nat) (t : RawTask)
    (h1 : t.start ≠ RawDate.bad) (h2 : t.end_ ≠ RawDate.bad)
    (h3 : ∀ s e : Int, t.start = .good s → t.end_ = .good e →
      durTooLong (some e) (some s) = false →
      s < e ∨ (s = e ∧ e % 24 = 0)) :
    endAfterStart (resolveTask today fid i t) = true := by
  obtain ⟨id, name, st, en, dep, pr⟩ := t
  cases st with
  | bad => exact absurd rfl h1
  | missing =>
    cases en with
    | bad => exact absurd rfl h2
    | missing =>
      obtain ⟨e1, e2, -⟩ := rt_mm today fid i id name dep pr
      rw [bumpEnd_some] at e2
      refine endAfterStart_of _ _ _ e1 e2 ?_
      split_ifs <;> omega
    | good e =>
      obtain ⟨e1, e2, -⟩ := rt_mg today fid i id name dep pr e
      rw [bumpEnd_some] at e2
      refine endAfterStart_of _ _ _ e1 e2 ?_
      split_ifs <;> omega
  | good s =>
    cases en with
    | bad => exact absurd rfl h2
    | missing =>
      obtain ⟨e1, e2, -⟩ := rt_gm today fid i id name dep pr s
      rw [bumpEnd_some] at e2
      refine endAfterStart_of _ _ _ e1 e2 ?_
      split_ifs <;> omega
    | good e =>
      rcases hc : durTooLong (some e) (some s) with _ | _
      · obtain ⟨e1, e2, -⟩ := rt_gg_ok today fid i id name dep pr s e hc
        rw [bumpEnd_some] at e2
        have hse := h3 s e rfl rfl hc
        refine endAfterStart_of _ _ _ e1 e2 ?_
        split_ifs <;> omega
      · obtain ⟨e1, -, e2, -⟩ := rt_gg_clamp today fid i id name dep pr s e hc
        rw [bumpEnd_some] at e2
        refine endAfterStart_of _ _ _ e1 e2 ?_
        split_ifs <;> omega

/-- A well-formed raw task: start at hour 0, end at hour 100. -/
def orderedTask : RawTask :=
  { id := "t2", name := "t2", start := .good 0, end_ := .good 100,
    dependencies := .list [], progress := 0 }

/-- C2, witness: the amended theorem applied to a concrete task with
ordered bounds. -/
theorem c2_witness :
    endAfterStart (resolveTask 0 "w" 0 orderedTask) = true :=
  c2_endResolved_after_startResolved 0 "w" 0 orderedTask (by decide) (by decide)
    (fun s e hs he _ => by
      simp only [orderedTask, RawDate.good.injEq] at hs he
      omega)

/-- A raw task with a parseable start at hour 0 (a midnight instant,
i.e. a date with zero time components) and no end. -/
def midnightStartTask : RawTask :=
  { id := "t3", name := "t3", start := .good 0, end_ := .missing,
    dependencies := .list [], progress := 0 }

/-- C3, counterexample: a task whose start parses to a midnight instant
(hour 0) and whose end is absent resolves to `endResolved = 72` — the
2-day default *plus* the 24-hour end-of-day bump, because the derived
end `start + 2 days` again has zero time components — so
`endResolved - startResolved` is 3 days, not exactly 2. -/
theorem c3_counterexample :
    (resolveTask 0 "x" 0 midnightStartTask).startResolved = some 0 ∧
      (resolveTask 0 "x" 0 midnightStartTask).endResolved = some 72 ∧
      (72 : Int) - 0 ≠ 2 * 24 :=
  ⟨rfl, rfl, by decide⟩

/-- C3, amended: for a start-only task, `endResolved - startResolved` is
exactly 2 days when the start has a nonzero time-of-day component, and
3 days (the 2-day default plus the 24-hour end-of-day bump) when the
start is at midnight; symmetrically, for an end-only task,
`startResolved` is exactly 2 days before the *parsed* end, and
`endResolved` is that parsed end plus the same conditional bump. -/
theorem c3_two_day_default (today : Int) (fid : String) (i : Nat)
    (t : RawTask) (v : Int) :
    (t.start = .good v → t.end_ = .missing →
      (resolveTask today fid i t).startResolved = some v ∧
      (resolveTask today fid i t).endResolved
          = some (v + 2 * 24 + (if v % 24 = 0 then 24 else 0))) ∧
    (t.start = .missing → t.end_ = .good v →
      (resolveTask today fid i t).startResolved = some (v - 2 * 24) ∧
      (resolveTask today fid i t).endResolved
          = some (v + (if v % 24 = 0 then 24 else 0))) := by
  obtain ⟨id, name, st, en, dep, pr⟩ := t
  constructor
  · intro h1 h2
    subst h1; subst h2
    obtain ⟨e1, e2, -⟩ := rt_gm today fid i id name dep pr v
    rw [bumpEnd_some] at e2
    refine ⟨e1, ?_⟩
    rw [e2]
    have h24 : (v + 2 * 24) % 24 = v % 24 := by omega
    rw [h24]
  · intro h1 h2
    subst h1; subst h2
    obtain ⟨e1, e2, -⟩ := rt_mg today fid i id name dep pr v
    rw [bumpEnd_some] at e2
    refine ⟨?_, e2⟩
    rw [e1]
    congr 1

/-- A raw task with a parseable start at hour 10 (nonzero time of day)
and no end. -/
def tenAmStartTask : RawTask :=
  { id := "t3w", name := "t3w", start := .good 10, end_ := .missing,
    dependencies := .list [], progress := 0 }

/-- C3, witness: the amended theorem applied to a concrete start-only
task whose start is not at midnight. -/
theorem c3_witness :
    (resolveTask 0 "w" 0 tenAmStartTask).startResolved = some 10 ∧
      (resolveTask 0 "w" 0 tenAmStartTask).endResolved
        = some (10 + 2 * 24 + (if (10 : Int) % 24 = 0 then 24 else 0)) :=
  (c3_two_day_default 0 "w" 0 tenAmStartTask 10).1 rfl rfl

/-- C10: when both bounds parse and the duration exceeds the 10-year
clamp, the raw end is discarded (`resolvedTask.end = null`), the end
re-resolves to the start plus 2 days (plus the 24-hour end-of-day bump
when that point has zero time components), and the task is marked
invalid. -/
theorem c10_duration_clamp (today : Int) (fid : String) (i : Nat)
    (t : RawTask) (s e : Int)
    (hs : t.start = .good s) (he : t.end_ = .good e)
    (hd : durTooLong (some e) (some s) = true) :
    (resolveTask today fid i t).startResolved = some s ∧
    (resolveTask today fid i t).end_ = RawDate.missing ∧
    (resolveTask today fid i t).endResolved
        = some (s + 2 * 24 + (if (s + 2 * 24) % 24 = 0 then 24 else 0)) ∧
    (resolveTask today fid i t).invalid = true := by
  obtain ⟨id, name, st, en, dep, pr⟩ := t
  simp only at hs he
  subst hs; subst he
  obtain ⟨e1, e2, e3, e4⟩ := rt_gg_clamp today fid i id name dep pr s e hd
  rw [bumpEnd_some] at e3
  exact ⟨e1, e2, e3, e4⟩

/-- A raw task spanning more than 10 years: start at hour 0, end at
hour 100000 (more than 11 years later). -/
def longTask : RawTask :=
  { id := "t10", name := "t10", start := .good 0, end_ := .good 100000,
    dependencies := .list [], progress := 0 }

/-- C10, witness: the clamp theorem applied to a concrete over-long
task. -/
theorem c10_witness :
    (resolveTask 0 "w" 0 longTask).startResolved = some 0 ∧
      (resolveTask 0 "w" 0 longTask).end_ = RawDate.missing ∧
      (resolveTask 0 "w" 0 longTask).endResolved
        = some (0 + 2 * 24 + (if ((0 : Int) + 2 * 24) % 24 = 0 then 24 else 0)) ∧
      (resolveTask 0 "w" 0 longTask).invalid = true :=
  c10_duration_clamp 0 "w" 0 longTask 0 100000 rfl rfl (by decide)

/-- A raw task whose `dependencies` field is absent. -/
def noDepsTask : RawTask :=
  { id := "t4", name := "t4", start := .good 0, end_ := .good 10,
    dependencies := .absent, progress := 0 }

/-- C4: the claim is right and the code is wrong.  The string case is
parsed as claimed (split on commas, entries trimmed, empty entries
dropped) and an explicit list is accepted, but an absent `dependencies`
field does *not* yield an empty set: the guard `else if (dependencies)`
tests the freshly initialised local array `[]` — always truthy — so the
raw `undefined` is copied through, contradicting the declared
`dependencies: string[]` type of `ResolvedTask`, and
`setupDependencies()` then throws (`undefined.forEach`). -/
theorem c4_dependencies_passthrough :
    resolveDependencies (DepField.str " a , ,b,") = DepsVal.strList ["a", "b"] ∧
      resolveDependencies (DepField.list ["x", "y"]) = DepsVal.strList ["x", "y"] ∧
      resolveDependencies DepField.absent = DepsVal.undef ∧
      (resolveTask 0 "x" 0 noDepsTask).dependencies = DepsVal.undef ∧
      setupDependencies [resolveTask 0 "x" 0 noDepsTask] = none :=
  ⟨by decide, rfl, rfl, rfl, rfl⟩

/-- C5, counterexample: `update_view_scale('Bogus')` overwrites
`options.view_mode` with the unknown mode *before* the switch, so the
active view mode does not remain that of the last valid mode (`'Day'`);
only `step` and `column_width` keep their previous values. -/
theorem c5_counterexample :
    (update_view_scale dayOptions "Bogus").1.view_mode = "Bogus" ∧
      (update_view_scale dayOptions "Bogus").1.view_mode ≠ dayOptions.view_mode ∧
      (update_view_scale dayOptions "Bogus").2 = true :=
  ⟨rfl, by decide, rfl⟩

/-- C5, amended: for every mode string outside the closed view-mode
enumeration, `update_view_scale` reports an error without crashing and
leaves `step` and `column_width` at the values of the last valid mode —
but it records the unknown string as the active `view_mode`. -/
theorem c5_unknown_mode_fallback (o : Options) (vm : String)
    (h : vm ∉ viewModes) :
    update_view_scale o vm = ({ o with view_mode := vm }, true) := by
  simp only [viewModes, List.mem_cons, List.not_mem_nil, or_false, not_or] at h
  obtain ⟨h1, h2, h3, h4, h5, h6⟩ := h
  simp [update_view_scale, h1, h2, h3, h4, h5, h6]

/-- C5, witness: the fallback theorem applied to the `'Day'` defaults
and the unknown mode string `'Bogus'`. -/
theorem c5_witness :
    update_view_scale dayOptions "Bogus"
      = ({ dayOptions with view_mode := "Bogus" }, true) :=
  c5_unknown_mode_fallback dayOptions "Bogus" (by decide)

lemma mousemove_update_length (o : Options) (k : GestureKind) (pid : String)
    (dx : ℚ) (bars : List GestureBar) :
    (mousemove_update o k pid dx bars).length = bars.length :=
  List.length_map _ _

/-- C7: on every move event of a Dragging gesture, every tracked bar
(the grabbed task and its dependents alike) is placed at its
gesture-start snapshot `ox` plus the snapped cumulative delta, with its
width untouched; and re-dispatching a move with a new cumulative delta
on the already-updated bars yields exactly the same result as
dispatching it on the original bars — the geometry is re-derived from
the snapshot, not accumulated frame to frame. -/
theorem c7_dragging_lockstep (o : Options) (pid : String) (dx d1 : ℚ)
    (bars : List GestureBar) (i : Nat) (h : i < bars.length)
    (h2 : i < (mousemove_update o .dragging pid dx bars).length) :
    (mousemove_update o .dragging pid dx bars)[i].cur.x
        = bars[i].ox + get_snap_position o dx ∧
    (mousemove_update o .dragging pid dx bars)[i].cur.width
        = bars[i].cur.width ∧
    mousemove_update o .dragging pid dx
        (mousemove_update o .dragging pid d1 bars)
      = mousemove_update o .dragging pid dx bars := by
  refine ⟨?_, ?_, ?_⟩
  · simp [mousemove_update, update_bar_position]
  · simp [mousemove_update, update_bar_position]
  · simp only [mousemove_update, List.map_map]
    rfl

/-- C8: on every move event of a ResizingRight gesture, the grabbed
bar's geometry becomes (unchanged x, snapshot width plus the snapped
delta), and every other tracked bar — the dependents — keeps both its x
and its width. -/
theorem c8_resize_right_isolated (o : Options) (pid : String) (dx : ℚ)
    (bars : List GestureBar) (i : Nat) (h : i < bars.length)
    (h2 : i < (mousemove_update o .resizing_right pid dx bars).length) :
    (mousemove_update o .resizing_right pid dx bars)[i].cur
      = if pid = bars[i].id then
          { x := bars[i].cur.x
            width := bars[i].owidth + get_snap_position o dx }
        else bars[i].cur := by
  simp only [mousemove_update, List.getElem_map, update_bar_position]
  split_ifs <;> rfl

/-- C9: for a ResizingProgress gesture started with progress width `pw`
and bar width `bw ≥ 0`, the mousedown capture sets `min_dx = -pw` and
`max_dx = bw - pw`; on every move the applied delta is clamped into
`[min_dx, max_dx]`, so the written progress width stays within
`[0, bw]`; and no other bar — nor any bar's x or width — is affected. -/
theorem c9_progress_clamped (pw bw dx : ℚ) (hbw : 0 ≤ bw) (tracked : String)
    (bars : List ProgressBarState) (i : Nat) (h : i < bars.length)
    (h2 : i < (progress_move_all tracked (progress_mousedown pw bw) dx bars).length) :
    (progress_mousedown pw bw).min_dx = -pw ∧
    (progress_mousedown pw bw).max_dx = bw - pw ∧
    (progress_mousedown pw bw).min_dx
        ≤ progress_clamp (progress_mousedown pw bw) dx ∧
    progress_clamp (progress_mousedown pw bw) dx
        ≤ (progress_mousedown pw bw).max_dx ∧
    0 ≤ progress_mousemove (progress_mousedown pw bw) dx ∧
    progress_mousemove (progress_mousedown pw bw) dx ≤ bw ∧
    (progress_move_all tracked (progress_mousedown pw bw) dx bars)[i].x
        = bars[i].x ∧
    (progress_move_all tracked (progress_mousedown pw bw) dx bars)[i].width
        = bars[i].width ∧
    (tracked ≠ bars[i].id →
      (progress_move_all tracked (progress_mousedown pw bw) dx bars)[i]
        = bars[i]) := by
  have key : -pw ≤ progress_clamp (progress_mousedown pw bw) dx ∧
      progress_clamp (progress_mousedown pw bw) dx ≤ bw - pw := by
    unfold progress_clamp progress_mousedown
    dsimp only
    split_ifs <;> constructor <;> linarith
  have hval : progress_mousemove (progress_mousedown pw bw) dx
      = pw + progress_clamp (progress_mousedown pw bw) dx := rfl
  refine ⟨rfl, rfl, key.1, key.2, ?_, ?_, ?_, ?_, ?_⟩
  · rw [hval]; linarith [key.1]
  · rw [hval]; linarith [key.2]
  · simp only [progress_move_all, List.getElem_map]
    split_ifs <;> rfl
  · simp only [progress_move_all, List.getElem_map]
    split_ifs <;> rfl
  · intro hne
    simp only [progress_move_all, List.getElem_map]
    rw [if_neg hne]

/-- A concrete tracked bar: task `b1`, snapshot x 100 and width 50. -/
def sampleBar : GestureBar :=
  { id := "b1", ox := 100, oy := 0, owidth := 50, finaldx := 0,
    cur := { x := 100, width := 50 } }

/-- C7, witness: the Dragging lockstep theorem applied to a single
concrete bar in Day view with cumulative deltas 40 (and 20 for the
re-derivation part). -/
theorem c7_witness :
    (mousemove_update dayOptions .dragging "b1" 40 [sampleBar])[0].cur.x
        = [sampleBar][0].ox + get_snap_position dayOptions 40 ∧
    (mousemove_update dayOptions .dragging "b1" 40 [sampleBar])[0].cur.width
        = [sampleBar][0].cur.width ∧
    mousemove_update dayOptions .dragging "b1" 40
        (mousemove_update dayOptions .dragging "b1" 20 [sampleBar])
      = mousemove_update dayOptions .dragging "b1" 40 [sampleBar] :=
  c7_dragging_lockstep dayOptions "b1" 40 20 [sampleBar] 0 (by simp)
    (by simp [mousemove_update])

/-- C8, witness: the ResizingRight isolation theorem applied to a single
concrete bar in Day view with cumulative delta 40. -/
theorem c8_witness :
    (mousemove_update dayOptions .resizing_right "b1" 40 [sampleBar])[0].cur
      = if "b1" = [sampleBar][0].id then
          { x := [sampleBar][0].cur.x
            width := [sampleBar][0].owidth + get_snap_position dayOptions 40 }
        else [sampleBar][0].cur :=
  c8_resize_right_isolated dayOptions "b1" 40 [sampleBar] 0 (by simp)
    (by simp [mousemove_update])

/-- A concrete bar state for the progress gesture: width 50, progress
width 10. -/
def sampleProgressBar : ProgressBarState :=
  { id := "b1", x := 100, width := 50, progressWidth := 10 }

/-- C9, witness: the progress-clamp theorem applied with progress width
10, bar width 50 and an out-of-range raw delta 100. -/
theorem c9_witness :
    (progress_mousedown 10 50).min_dx = -10 ∧
    (progress_mousedown 10 50).max_dx = 50 - 10 ∧
    (progress_mousedown 10 50).min_dx
        ≤ progress_clamp (progress_mousedown 10 50) 100 ∧
    progress_clamp (progress_mousedown 10 50) 100
        ≤ (progress_mousedown 10 50).max_dx ∧
    0 ≤ progress_mousemove (progress_mousedown 10 50) 100 ∧
    progress_mousemove (progress_mousedown 10 50) 100 ≤ 50 ∧
    (progress_move_all "b1" (progress_mousedown 10 50) 100
        [sampleProgressBar])[0].x = [sampleProgressBar][0].x ∧
    (progress_move_all "b1" (progress_mousedown 10 50) 100
        [sampleProgressBar])[0].width = [sampleProgressBar][0].width ∧
    ("b1" ≠ [sampleProgressBar][0].id →
      (progress_move_all "b1" (progress_mousedown 10 50) 100
        [sampleProgressBar])[0] = [sampleProgressBar][0]) :=
  c9_progress_clamped 10 50 100 (by norm_num) "b1" [sampleProgressBar] 0
    (by simp) (by simp [progress_move_all])

lemma jsTrunc_nonneg (q : ℚ) (h : 0 ≤ q) : jsTrunc q = ⌊q⌋ := if_pos h

lemma jsTrunc_neg (q : ℚ) (h : ¬ 0 ≤ q) : jsTrunc q = ⌈q⌉ := if_neg h

lemma snapCore_neg (g dx : ℚ) (hg : 0 < g) (hdx : dx < 0) :
    snapCore g dx = g * ⌈dx / g⌉ := by
  have hq : dx / g < 0 := div_neg_of_neg_of_pos hdx hg
  unfold snapCore jsMod
  rw [jsTrunc_neg _ (not_le.mpr hq)]
  have hgx : g * (dx / g) = dx := by field_simp
  have h1 : dx / g ≤ ((⌈dx / g⌉ : ℤ) : ℚ) := Int.le_ceil _
  have h2 : g * (dx / g) ≤ g * ((⌈dx / g⌉ : ℤ) : ℚ) :=
    mul_le_mul_of_nonneg_left h1 hg.le
  have hcond : dx - g * ((⌈dx / g⌉ : ℤ) : ℚ) < g / 2 := by linarith
  rw [if_pos hcond]
  ring

lemma snapCore_nonneg (g dx : ℚ) (hg : 0 < g) (hdx : 0 ≤ dx) :
    snapCore g dx = g * ⌊dx / g + 1 / 2⌋ := by
  have hq : 0 ≤ dx / g := div_nonneg hdx hg.le
  unfold snapCore jsMod
  rw [jsTrunc_nonneg _ hq]
  have hgx : g * (dx / g) = dx := by field_simp
  have hfr : Int.fract (dx / g) = dx / g - ((⌊dx / g⌋ : ℤ) : ℚ) := rfl
  have hrem : dx - g * ((⌊dx / g⌋ : ℤ) : ℚ) = g * Int.fract (dx / g) := by
    rw [hfr, mul_sub, hgx]
  have hsplit : (⌊dx / g + 1 / 2⌋ : ℤ)
      = ⌊dx / g⌋ + ⌊Int.fract (dx / g) + 1 / 2⌋ := by
    conv_lhs => rw [← Int.floor_add_fract (dx / g)]
    rw [add_assoc, Int.floor_int_add]
  rw [hrem, hsplit]
  by_cases hf : Int.fract (dx / g) < 1 / 2
  · have h0 : (⌊Int.fract (dx / g) + 1 / 2⌋ : ℤ) = 0 := by
      rw [Int.floor_eq_zero_iff, Set.mem_Ico]
      constructor
      · linarith [Int.fract_nonneg (dx / g)]
      · linarith
    have hlt : g * Int.fract (dx / g) < g / 2 := by
      have := mul_lt_mul_of_pos_left hf hg
      linarith
    rw [if_pos hlt, h0, hfr]
    push_cast
    linear_combination -hgx
  · have h1 : (⌊Int.fract (dx / g) + 1 / 2⌋ : ℤ) = 1 := by
      rw [Int.floor_eq_iff]
      constructor
      · push_cast
        linarith [not_lt.mp hf]
      · push_cast
        linarith [Int.fract_lt_one (dx / g)]
    have hge : ¬ g * Int.fract (dx / g) < g / 2 := by
      have h2 := mul_le_mul_of_nonneg_left (not_lt.mp hf) hg.le
      intro hcon
      nlinarith
    rw [if_neg hge, h1, hfr]
    push_cast
    linear_combination -hgx

lemma get_snap_position_eq_snapCore (o : Options) (dx : ℚ) :
    get_snap_position o dx = snapCore (snapGranularity o) dx := by
  unfold get_snap_position snapGranularity
  by_cases hW : view_is o "Week"
  · simp only [hW, if_true]
    unfold snapCore
    rw [show o.column_width / 7 / 2 = o.column_width / 14 by ring]
  · by_cases hM : view_is o "Month"
    · simp only [hW, hM, if_true, if_false, Bool.false_eq_true]
      unfold snapCore
      rw [show o.column_width / 30 / 2 = o.column_width / 60 by ring]
    · simp only [hW, hM, if_false, Bool.false_eq_true]
      unfold snapCore
      rfl

/-- C6, counterexample: in Week mode (granularity `140 / 7 = 20`) the
delta `-35` snaps to `-20`, yet `-40` is a multiple of the granularity
strictly closer to `-35` (distance 5 versus 15) — so the snap is not
"round to the nearest multiple" for negative deltas.  (The JS `%`
keeps the dividend's sign, so a negative remainder is always below the
half-granule threshold and the granule is never added back.) -/
theorem c6_counterexample :
    get_snap_position weekOptions (-35) = -20 ∧
      (-40 : ℚ) = snapGranularity weekOptions * (-2) ∧
      (-35 : ℚ) - (-40) < get_snap_position weekOptions (-35) - (-35) := by
  have hgr : snapGranularity weekOptions = 20 := by
    norm_num [snapGranularity, view_is, weekOptions]
  have e1 : get_snap_position weekOptions (-35) = -20 := by
    rw [get_snap_position_eq_snapCore, hgr,
      snapCore_neg 20 (-35) (by norm_num) (by norm_num)]
    have hc : (⌈(-35 : ℚ) / 20⌉ : ℤ) = -1 := by
      rw [Int.ceil_eq_iff]
      constructor <;> norm_num
    rw [hc]
    norm_num
  exact ⟨e1, by rw [hgr]; norm_num, by rw [e1]; norm_num⟩

/-- C6, amended: with a positive column width, `get_snap_position`
quantises at the per-view-mode granularity (`column_width / 7` for
Week, `column_width / 30` for Month, the whole `column_width`
otherwise); a *nonnegative* delta is rounded to the nearest multiple of
the granularity with half-granule ties going to the larger multiple,
but a *negative* delta is always rounded up to the ceiling multiple
(the smallest multiple at or above it), not to the nearest. -/
theorem c6_snap_rounding (o : Options) (dx : ℚ) (h : 0 < o.column_width) :
    get_snap_position o dx =
      if 0 ≤ dx then snapGranularity o * ⌊dx / snapGranularity o + 1 / 2⌋
      else snapGranularity o * ⌈dx / snapGranularity o⌉ := by
  have hg : 0 < snapGranularity o := by
    unfold snapGranularity
    split_ifs <;> positivity
  rw [get_snap_position_eq_snapCore]
  by_cases hdx : 0 ≤ dx
  · rw [if_pos hdx, snapCore_nonneg _ _ hg hdx]
  · rw [if_neg hdx, snapCore_neg _ _ hg (not_le.mp hdx)]

/-- C6, witness: the rounding characterisation applied at Week options
and delta `-35`. -/
theorem c6_witness :
    get_snap_position weekOptions (-35)
      = (if (0 : ℚ) ≤ -35 then
            snapGranularity weekOptions
              * ⌊(-35 : ℚ) / snapGranularity weekOptions + 1 / 2⌋
          else
            snapGranularity weekOptions
              * ⌈(-35 : ℚ) / snapGranularity weekOptions⌉) :=
  c6_snap_rounding weekOptions (-35) (by norm_num [weekOptions])

end Gantt
